import Mathlib

/-!
Verification of the Dist2Cycle training notebook
(`tutorials/simplicial/dist2Cycle_train.ipynb`).

Scalars are modelled as exact rationals `ℚ` (an idealisation of the
notebook's floating-point arithmetic).  Computations that the notebook
delegates to external libraries (torch autograd, the Adam optimizer,
`torch.exp` inside `softmax`, the `Dist2CycleLayer` internals, and the
toponetx dataset constructors) are abstracted as function parameters,
so every theorem below is quantified over all possible behaviours of
those external pieces.
-/

namespace D2C

attribute [local semireducible] Rat.add Rat.sub Rat.mul Rat.inv

/-- Dense matrix with `m` rows and `c` columns, entries in `ℚ`. -/
def Mat (m c : ℕ) : Type := Fin m → Fin c → ℚ

/-- Embeds `torch.nn.Linear(channels, 2)` from `Dist2Cycle.__init__`:
an affine map from `c` input channels to 2 output channels. -/
structure Linear (c : ℕ) where
  w : Fin 2 → Fin c → ℚ
  b : Fin 2 → ℚ

/-- Sum of a family indexed by `Fin n`, by structural recursion (so
that concrete instances evaluate inside the kernel). -/
def finSum : (n : ℕ) → (Fin n → ℚ) → ℚ
  | 0, _ => 0
  | n + 1, f => f 0 + finSum n (fun i => f i.succ)

/-- Application of the linear layer to one row of features. -/
def Linear.apply (lin : Linear c) (x : Fin c → ℚ) : Fin 2 → ℚ :=
  fun j => finSum c (fun i => lin.w j i * x i) + lin.b j

/-- Embeds `torch.softmax(·, dim=-1)` on a row with two entries: each
entry is its exponential divided by the row's total exponential mass.
The exponential of the backend is abstracted as a parameter `e`. -/
def softmax2 (e : ℚ → ℚ) (z : Fin 2 → ℚ) : Fin 2 → ℚ :=
  fun i => e (z i) / (e (z 0) + e (z 1))

/-- Embeds `Dist2Cycle.forward` from the notebook:

    for layer in self.layers:
        x_1 = layer(x_1e, Linv, adjacency)
    logits = self.linear(x_1e)
    return torch.softmax(logits, dim=-1)

Each loop iteration applies a layer to the ORIGINAL input `x_1e` and
rebinds `x_1`; the final `x_1` is never used (dead code, kept here as
the unused binding `_x_1`): the returned tensor is the softmaxed linear
projection of the input `x_1e` itself.  The message-passing layers are
abstracted as a list of functions `(x_1e, Linv, adjacency) ↦ output`. -/
def Dist2Cycle.forward (e : ℚ → ℚ)
    (layerFns : List (Mat m c → Mat m c → Mat m c → Mat m c))
    (lin : Linear c) (x_1e Linv adjacency : Mat m c) : Fin m → Fin 2 → ℚ :=
  let _x_1 := layerFns.foldl (fun _x_1 f => f x_1e Linv adjacency) x_1e
  fun r => softmax2 e (lin.apply (x_1e r))

/-- The forward pass as the specification words it (for comparison with
`Dist2Cycle.forward`): the input is fed through the stack of layers,
each layer consuming the previous layer's output, and the linear
projection plus softmax are applied to the stack's output. -/
def forwardSpec (e : ℚ → ℚ)
    (layerFns : List (Mat m c → Mat m c → Mat m c → Mat m c))
    (lin : Linear c) (x_1e Linv adjacency : Mat m c) : Fin m → Fin 2 → ℚ :=
  let h := layerFns.foldl (fun h f => f h Linv adjacency) x_1e
  fun r => softmax2 e (lin.apply (h r))

/-! ### Ground-truth labels (notebook cell defining `y`, `y_true`, `y_train`, `y_test`) -/

/-- The literal 34-entry label array `y` of the notebook. -/
def yBase : List ℚ :=
  [1, 1, 1, 1, 1, 1, 1, 1, 1, 0, 1, 1, 1, 1, 0, 0, 1, 1, 0, 1, 0, 1, 0,
   0, 0, 0, 0, 0, 0, 0, 0, 0, 0, 0]

/-- `y = np.append(np.append(y, y), [1,1,1,1,1,1,0,0,0,1])`: 78 entries. -/
def yVec : List ℚ :=
  (yBase ++ yBase) ++ [1, 1, 1, 1, 1, 1, 0, 0, 0, 1]

/-- `y_true`: 78×2 one-hot array, column 0 is `y`, column 1 is `1 - y`. -/
def y_true : Fin 78 → Fin 2 → ℚ :=
  fun r c => if c = 0 then yVec.getD r 0 else 1 - yVec.getD r 0

/-- Row index map of the training slice `y_true[:30]` into `y_true`. -/
def trainIdx (i : Fin 30) : Fin 78 :=
  ⟨i.val, by have := i.isLt; omega⟩

/-- Row index map of the test slice `y_true[-4:]` into `y_true`. -/
def testIdx (i : Fin 4) : Fin 78 :=
  ⟨74 + i.val, by have := i.isLt; omega⟩

/-- `y_train = y_true[:30]`. -/
def y_train : Fin 30 → Fin 2 → ℚ := fun i c => y_true (trainIdx i) c

/-- `y_test = y_true[-4:]`. -/
def y_test : Fin 4 → Fin 2 → ℚ := fun i c => y_true (testIdx i) c

/-! ### Slicing, thresholding and accuracy (training-loop cell) -/

/-- `y_hat[: len(y_train)]`: rows 0..29. -/
def firstRows (yh : Fin 78 → Fin 2 → ℚ) : Fin 30 → Fin 2 → ℚ :=
  fun i c => yh (trainIdx i) c

/-- `y_pred[-len(y_train) :]`: the LAST 30 rows, 48..77. -/
def lastRows30 (yh : Fin 78 → Fin 2 → ℚ) : Fin 30 → Fin 2 → ℚ :=
  fun i c => yh ⟨48 + i.val, by have := i.isLt; omega⟩ c

/-- `y_pred_test[-len(y_test) :]`: the last 4 rows, 74..77. -/
def lastRows4 (yh : Fin 78 → Fin 2 → ℚ) : Fin 4 → Fin 2 → ℚ :=
  fun i c => yh (testIdx i) c

/-- `torch.where(y_hat > 0.5, 1, 0)`, entrywise. -/
def threshold (yh : Fin n → Fin 2 → ℚ) : Fin n → Fin 2 → ℚ :=
  fun r c => if 1 / 2 < yh r c then 1 else 0

/-- `(pred == labels).all(dim=1).float().mean()`: fraction of rows on
which prediction and label rows agree entrywise. -/
def sliceAccuracy (pred labels : Fin n → Fin 2 → ℚ) : ℚ :=
  finSum n (fun i => if ∀ c, pred i c = labels i c then (1 : ℚ) else 0) / n

/-- The train accuracy exactly as the notebook computes it:
`(y_pred[-len(y_train):] == y_train).all(dim=1).float().mean()` —
prediction rows 48..77 compared against the labels of rows 0..29. -/
def trainAccuracy (yh : Fin 78 → Fin 2 → ℚ) : ℚ :=
  sliceAccuracy (lastRows30 (threshold yh)) y_train

/-- The train accuracy as the claim states it (for comparison with
`trainAccuracy`): prediction rows 0..29 against the labels of the same
rows 0..29. -/
def trainAccuracyClaimed (yh : Fin 78 → Fin 2 → ℚ) : ℚ :=
  sliceAccuracy (firstRows (threshold yh)) y_train

/-- `np.mean` of a list of rationals. -/
def npMean (l : List ℚ) : ℚ := l.sum / l.length

/-! ### Model object and parameter registration -/

/-- The parameter tensors held by a `Dist2Cycle` model object:
`self.layers` is a plain Python list of `Dist2CycleLayer` instances
(each abstracted by its weight tensor Θ, a 78×78 matrix), and
`self.linear` is the `torch.nn.Linear(78, 2)` layer. -/
structure ModelParams where
  layersParams : List (Mat 78 78)
  lin : Linear 78

/-- The two attribute assignments performed by `Dist2Cycle.__init__`:
`self.linear = torch.nn.Linear(channels, 2)` (an `nn.Module` attribute)
and `self.layers = layers` (a plain Python list). -/
inductive PyAttr
  | submodule : Linear 78 → PyAttr
  | plainList : List (Mat 78 78) → PyAttr

/-- The attribute list stored on a `Dist2Cycle` instance by `__init__`. -/
def dist2CycleAttrs (p : ModelParams) : List PyAttr :=
  [.submodule p.lin, .plainList p.layersParams]

/-- Embeds `torch.nn.Module.parameters()`: an attribute assigned an
`nn.Module` value is registered as a submodule and contributes its
parameters; an attribute assigned a plain Python list is not registered
and contributes nothing. -/
def moduleParameters (attrs : List PyAttr) : List (Linear 78) :=
  attrs.foldr
    (fun a acc =>
      match a with
      | .submodule l => l :: acc
      | .plainList _ => acc)
    []

/-! ### The training loop (final notebook cell) -/

/-- The external computations the training loop delegates to the torch
backend, abstracted as functions, together with the fixed structural
inputs of the run:
* `eexp` — the exponential used inside `torch.softmax`;
* `layerApply` — the `Dist2CycleLayer` internals: weights Θ and the
  three tensors `(x_1e, Linv, adjacency)` to an updated feature tensor;
* `bce` — `torch.nn.functional.binary_cross_entropy_with_logits`;
* `adamUpdate` — the effect of `loss.backward(); optimizer.step()` on
  the registered parameters and the optimizer state `σ` (the gradient
  context it depends on — the current linear parameters and the train
  labels — is passed in; `x_1e` is fixed inside the backend);
* `x_1e`, `Linv`, `adjacency` — the fixed structural input tensors. -/
structure Backend (σ : Type) where
  eexp : ℚ → ℚ
  layerApply : Mat 78 78 → Mat 78 78 → Mat 78 78 → Mat 78 78 → Mat 78 78
  bce : (Fin 30 → Fin 2 → ℚ) → (Fin 30 → Fin 2 → ℚ) → ℚ
  adamUpdate : Linear 78 → σ → (Fin 30 → Fin 2 → ℚ) → Linear 78 × σ
  x_1e : Mat 78 78
  Linv : Mat 78 78
  adjacency : Mat 78 78

/-- `model(x_1e, Linv, adjacency)` for the concrete 78-channel model. -/
def forwardModel (B : Backend σ) (p : ModelParams) : Fin 78 → Fin 2 → ℚ :=
  Dist2Cycle.forward B.eexp (p.layersParams.map B.layerApply) p.lin
    B.x_1e B.Linv B.adjacency

/-- One console line of the training loop:
`epochLine n loss acc` stands for the printed line
`Epoch: <n> loss: <loss:.4f> Train_acc: <acc:.4f>` and
`testLine acc` for `Test_acc: <acc:.4f>`. -/
inductive OutLine
  | epochLine : ℕ → ℚ → ℚ → OutLine
  | testLine : ℚ → OutLine

/-- `test_interval = 2` of the notebook. -/
def testInterval : ℕ := 2

/-- Mutable state threaded through the training loop: the model
parameters, the optimizer state, and the label arrays the loop reads
(`y_train`, `y_test`), carried explicitly so that their immutability is
provable rather than assumed. -/
structure LoopState (σ : Type) where
  model : ModelParams
  opt : σ
  yTr : Fin 30 → Fin 2 → ℚ
  yTe : Fin 4 → Fin 2 → ℚ

/-- Result of one epoch: updated state, the loss recorded in
`epoch_loss`, and the console lines printed during the epoch. -/
structure EpochRes (σ : Type) where
  state : LoopState σ
  lossVal : ℚ
  lines : List OutLine

/-- One iteration of the training loop, for epoch index `i`
(`model.train()` and `optimizer.zero_grad()` are no-ops in this purely
functional model; zeroing of gradients is part of `adamUpdate`):

    y_hat = model(x_1e, Linv, adjacency)
    loss = BCEwithlogits(y_hat[:len(y_train)], y_train)
    epoch_loss.append(loss.item())
    loss.backward(); optimizer.step()
    y_pred = torch.where(y_hat > 0.5, 1, 0)
    accuracy = (y_pred[-len(y_train):] == y_train).all(dim=1).float().mean()
    print(f"Epoch: {i} loss: {np.mean(epoch_loss)} Train_acc: {accuracy}")
    if i % test_interval == 0:
        with torch.no_grad():
            y_hat_test = model(x_1e, Linv, adjacency)
            ... print(f"Test_acc: {test_accuracy}")
-/
def runEpoch (B : Backend σ) (i : ℕ) (s : LoopState σ) : EpochRes σ :=
  let yHat := forwardModel B s.model
  let loss := B.bce (firstRows yHat) s.yTr
  let epochLoss := [loss]
  let step := B.adamUpdate s.model.lin s.opt s.yTr
  let model2 : ModelParams := ⟨s.model.layersParams, step.1⟩
  let yPred := threshold yHat
  let acc := sliceAccuracy (lastRows30 yPred) s.yTr
  let s2 : LoopState σ := ⟨model2, step.2, s.yTr, s.yTe⟩
  let lines1 := [OutLine.epochLine i (npMean epochLoss) acc]
  if i % testInterval = 0 then
    let yHatTest := forwardModel B model2
    let testAcc := sliceAccuracy (lastRows4 (threshold yHatTest)) s.yTe
    ⟨s2, loss, lines1 ++ [OutLine.testLine testAcc]⟩
  else
    ⟨s2, loss, lines1⟩

/-- Runs the loop body over a list of epoch indices, collecting the
recorded losses and the console output in order. -/
def runEpochs (B : Backend σ) :
    List ℕ → LoopState σ → LoopState σ × List ℚ × List OutLine
  | [], s => (s, [], [])
  | i :: rest, s =>
    let r := runEpoch B i s
    let t := runEpochs B rest r.state
    (t.1, r.lossVal :: t.2.1, r.lines ++ t.2.2)

/-- `for epoch_i in range(1, num_epochs + 1): ...` — the whole loop. -/
def trainLoop (B : Backend σ) (numEpochs : ℕ) (s : LoopState σ) :
    LoopState σ × List ℚ × List OutLine :=
  runEpochs B (List.range' 1 numEpochs) s

/-- Epoch indices carried by the `Epoch:` lines of a console trace. -/
def epochIndices (lines : List OutLine) : List ℕ :=
  lines.filterMap
    (fun l =>
      match l with
      | .epochLine i _ _ => some i
      | .testLine _ => none)

/-! ### Structural matrices and their shapes (pre-processing cells) -/

/-- Matrix with untyped (value-level) shape, for shape-conformance
statements about the derived structural matrices. -/
structure NMat where
  rows : ℕ
  cols : ℕ
  entry : ℕ → ℕ → ℚ

/-- Node count of the karate club complex, printed by the notebook. -/
def nNodes : ℕ := 34

/-- Edge count of the karate club complex; also `channels_nodes = 78`. -/
def nEdges : ℕ := 78

/-- Modelled from the spec: `dataset.incidence_matrix(rank=1)` of the
toponetx karate-club simplicial complex (the dataset constructor is an
external library, not in this repository): the rank-1 incidence matrix
is the boundary operator from edges to nodes, of shape
node count × edge count; its entry values are abstracted as `e`. -/
def incidence_1 (e : ℕ → ℕ → ℚ) : NMat := ⟨nNodes, nEdges, e⟩

/-- Modelled from the spec: `dataset.down_laplacian_matrix(rank=1)` —
the down-Laplacian among edges via shared nodes, an
edge count × edge count matrix; entry values abstracted as `e`. -/
def down_laplacian_1 (e : ℕ → ℕ → ℚ) : NMat := ⟨nEdges, nEdges, e⟩

/-- `np.eye(n)`. -/
def npEye (n : ℕ) : NMat :=
  ⟨n, n, fun i j => if i = j then 1 else 0⟩

/-- Entrywise sum of two matrices (shape of the left operand). -/
def matAdd (a b : NMat) : NMat :=
  ⟨a.rows, a.cols, fun i j => a.entry i j + b.entry i j⟩

/-- Modelled from the spec: `numpy.linalg.pinv` — the Moore–Penrose
pseudo-inverse of an m×n matrix is n×m; its entry values are computed
by the external numerical library, abstracted here as `pe`. -/
def pinvM (pe : ℕ → ℕ → ℚ) (a : NMat) : NMat := ⟨a.cols, a.rows, pe⟩

/-- `L_tilde_pinv = npla.pinv(ld + np.eye(ld.shape[0]))` where
`ld = dataset.down_laplacian_matrix(rank=1).todense()`. -/
def L_tilde_pinv (le pe : ℕ → ℕ → ℚ) : NMat :=
  pinvM pe (matAdd (down_laplacian_1 le) (npEye (down_laplacian_1 le).rows))

/-! ### Concrete instances used in counterexamples and witnesses -/

/-- The all-zero 1×1 feature matrix. -/
def zeroMat : Mat 1 1 := fun _ _ => 0

/-- A linear layer on one channel with zero weights and bias. -/
def zeroLin : Linear 1 := ⟨fun _ _ => 0, fun _ => 0⟩

/-- A strictly positive stand-in for the exponential: `t ↦ t + 2`
(positive on all inputs occurring in the evaluation below). -/
def eC1 : ℚ → ℚ := fun t => t + 2

/-- A message-passing layer returning the constant-1 feature matrix. -/
def layerC1 : Mat 1 1 → Mat 1 1 → Mat 1 1 → Mat 1 1 :=
  fun _ _ _ => fun _ _ => 1

/-- A linear layer on one channel with weight rows `(1)` and `(0)` and
zero bias, so the two logits separate the input feature. -/
def linC1 : Linear 1 := ⟨fun j _ => if j = 0 then 1 else 0, fun _ => 0⟩

/-- A model output whose rows 0..29 reproduce the true labels exactly
and whose remaining rows are the constant 3/5 (thresholded to (1,1),
matching no one-hot label row). -/
def yhatC2 : Fin 78 → Fin 2 → ℚ :=
  fun r c => if r.val < 30 then y_true r c else 3 / 5

/-- A trivial concrete backend over the unit optimizer state: constant
external functions and zero structural tensors. -/
def unitBackend : Backend Unit where
  eexp := fun _ => 1
  layerApply := fun _ _ _ _ => fun _ _ => 0
  bce := fun _ _ => 0
  adamUpdate := fun l o _ => (l, o)
  x_1e := fun _ _ => 0
  Linv := fun _ _ => 0
  adjacency := fun _ _ => 0

/-- A concrete initial loop state: no message-passing layers, a zero
linear layer, and the notebook's label arrays. -/
def initState : LoopState Unit :=
  ⟨⟨[], ⟨fun _ _ => 0, fun _ => 0⟩⟩, (), y_train, y_test⟩

/-! ### Helper lemmas about one epoch and the loop -/

/-- The state after one epoch is exactly the optimizer-step result on
the linear parameters, with layer parameters and labels untouched; in
particular it does not depend on whether the test branch ran. -/
theorem runEpoch_state (B : Backend σ) (i : ℕ) (s : LoopState σ) :
    (runEpoch B i s).state =
      ⟨⟨s.model.layersParams, (B.adamUpdate s.model.lin s.opt s.yTr).1⟩,
       (B.adamUpdate s.model.lin s.opt s.yTr).2, s.yTr, s.yTe⟩ := by
  by_cases h : i % testInterval = 0 <;> simp [runEpoch, h]

/-- Each epoch contributes exactly one `Epoch:` line, carrying its own
epoch index. -/
theorem runEpoch_indices (B : Backend σ) (i : ℕ) (s : LoopState σ) :
    epochIndices (runEpoch B i s).lines = [i] := by
  by_cases h : i % testInterval = 0 <;>
    simp [runEpoch, epochIndices, h]

/-- The loop never touches the layer parameters or the label arrays. -/
theorem runEpochs_frame (B : Backend σ) (es : List ℕ) :
    ∀ s : LoopState σ,
      (runEpochs B es s).1.model.layersParams = s.model.layersParams ∧
      (runEpochs B es s).1.yTr = s.yTr ∧
      (runEpochs B es s).1.yTe = s.yTe := by
  induction es with
  | nil => intro s; exact ⟨rfl, rfl, rfl⟩
  | cons i rest ih =>
    intro s
    have h2 := runEpoch_state B i s
    have h1 := ih (⟨⟨s.model.layersParams, (B.adamUpdate s.model.lin s.opt s.yTr).1⟩,
      (B.adamUpdate s.model.lin s.opt s.yTr).2, s.yTr, s.yTe⟩ : LoopState σ)
    refine ⟨?_, ?_, ?_⟩
    · show (runEpochs B rest (runEpoch B i s).state).1.model.layersParams =
        s.model.layersParams
      rw [h2]; exact h1.1
    · show (runEpochs B rest (runEpoch B i s).state).1.yTr = s.yTr
      rw [h2]; exact h1.2.1
    · show (runEpochs B rest (runEpoch B i s).state).1.yTe = s.yTe
      rw [h2]; exact h1.2.2

/-- The loop records one loss per epoch and prints the `Epoch:` lines
for exactly the visited epoch indices, in order. -/
theorem runEpochs_losses_indices (B : Backend σ) (es : List ℕ) :
    ∀ s : LoopState σ,
      (runEpochs B es s).2.1.length = es.length ∧
      epochIndices (runEpochs B es s).2.2 = es := by
  induction es with
  | nil => intro s; exact ⟨rfl, rfl⟩
  | cons i rest ih =>
    intro s
    have h1 := ih (runEpoch B i s).state
    constructor
    · show ((runEpoch B i s).lossVal ::
          (runEpochs B rest (runEpoch B i s).state).2.1).length = rest.length + 1
      simp [h1.1]
    · show epochIndices ((runEpoch B i s).lines ++
          (runEpochs B rest (runEpoch B i s).state).2.2) = i :: rest
      simp only [epochIndices, List.filterMap_append]
      have hl := runEpoch_indices B i s
      have hr := h1.2
      simp only [epochIndices] at hl hr
      rw [hl, hr]
      rfl

/-! ### Claim theorems -/

/-- C1: the claim says `Dist2Cycle.forward` feeds the input through the
stack of message-passing layers and applies the linear projection and
softmax to the stack's output, so that the result depends on the
layers' computation.  On the code this is false: the returned tensor is
identical for any two lists of layer functions (first conjunct), and at
a concrete input (zero 1×1 features, one constant-1 layer, weights
`(1),(0)`, zero bias, exponential `t ↦ t + 2`) the code returns `1/2`
while the spec's composition returns `3/5`. -/
theorem forward_ignores_layer_stack :
    (∀ (m c : ℕ) (e : ℚ → ℚ)
        (fs gs : List (Mat m c → Mat m c → Mat m c → Mat m c))
        (lin : Linear c) (x Linv adj : Mat m c),
        Dist2Cycle.forward e fs lin x Linv adj =
          Dist2Cycle.forward e gs lin x Linv adj) ∧
    Dist2Cycle.forward eC1 [layerC1] linC1 zeroMat zeroMat zeroMat 0 0 = 1 / 2 ∧
    forwardSpec eC1 [layerC1] linC1 zeroMat zeroMat zeroMat 0 0 = 3 / 5 := by
  refine ⟨fun m c e fs gs lin x Linv adj => rfl, by decide, by decide⟩

set_option maxRecDepth 100000 in
/-- C2: the claim says the printed train accuracy compares the model
output rows 0..29 against `y_train`.  On the code this is false: the
notebook slices `y_pred[-len(y_train):]`, i.e. rows 48..77.  At the
concrete output `yhatC2` (rows 0..29 equal to the true labels, rows
30..77 constant 3/5) the code's accuracy is 0 while the accuracy of the
claim's slice is 1. -/
theorem train_accuracy_uses_wrong_slice :
    trainAccuracy yhatC2 = 0 ∧ trainAccuracyClaimed yhatC2 = 1 := by
  exact ⟨by decide, by decide⟩

/-- C3: `model.parameters()` contains only the final linear layer
(weight and bias): `self.layers` is a plain Python list, which
`torch.nn.Module` does not register, so only `self.linear` contributes;
consequently every training step — hence the whole loop — leaves the
message-passing layers' parameters unchanged. -/
theorem optimizer_params_linear_only :
    (∀ p : ModelParams, moduleParameters (dist2CycleAttrs p) = [p.lin]) ∧
    ∀ (σ : Type) (B : Backend σ) (n : ℕ) (s : LoopState σ),
      (trainLoop B n s).1.model.layersParams = s.model.layersParams := by
  refine ⟨fun p => rfl, fun σ B n s => ?_⟩
  exact (runEpochs_frame B (List.range' 1 n) s).1

/-- C4: for every input and every strictly positive exponential, each
entry of the tensor returned by `Dist2Cycle.forward` is non-negative
and each row sums to 1 (exactly, in this rational model of the
floating-point computation). -/
theorem forward_softmax_simplex (m c : ℕ) (e : ℚ → ℚ) (he : ∀ t, 0 < e t)
    (fs : List (Mat m c → Mat m c → Mat m c → Mat m c)) (lin : Linear c)
    (x Linv adj : Mat m c) (r : Fin m) :
    (∀ j, 0 ≤ Dist2Cycle.forward e fs lin x Linv adj r j) ∧
    (∑ j, Dist2Cycle.forward e fs lin x Linv adj r j) = 1 := by
  have hval : ∀ j, Dist2Cycle.forward e fs lin x Linv adj r j =
      e (lin.apply (x r) j) /
        (e (lin.apply (x r) 0) + e (lin.apply (x r) 1)) := fun j => rfl
  have hS : 0 < e (lin.apply (x r) 0) + e (lin.apply (x r) 1) :=
    add_pos (he _) (he _)
  constructor
  · intro j; rw [hval j]; exact div_nonneg (he _).le hS.le
  · calc (∑ j, Dist2Cycle.forward e fs lin x Linv adj r j)
        = e (lin.apply (x r) 0) /
            (e (lin.apply (x r) 0) + e (lin.apply (x r) 1)) +
          e (lin.apply (x r) 1) /
            (e (lin.apply (x r) 0) + e (lin.apply (x r) 1)) := by
          rw [Fin.sum_univ_two, hval 0, hval 1]
      _ = (e (lin.apply (x r) 0) + e (lin.apply (x r) 1)) /
            (e (lin.apply (x r) 0) + e (lin.apply (x r) 1)) :=
          div_add_div_same _ _ _
      _ = 1 := div_self hS.ne'

/-- Witness for C4 at a concrete input: one channel, no layers, zero
linear layer and features, exponential constantly 1. -/
theorem forward_softmax_simplex_witness :
    (∀ j, 0 ≤ Dist2Cycle.forward (fun _ => 1) [] zeroLin zeroMat zeroMat
        zeroMat (0 : Fin 1) j) ∧
    (∑ j, Dist2Cycle.forward (fun _ => 1) [] zeroLin zeroMat zeroMat
        zeroMat (0 : Fin 1) j) = 1 :=
  forward_softmax_simplex 1 1 (fun _ => 1) (fun _ => one_pos) [] zeroLin
    zeroMat zeroMat zeroMat 0

/-- C5: two runs of the training loop with the same seed — hence equal
initial states (model parameters, optimizer state, labels) — and the
same epoch count record identical sequences of per-epoch loss values;
the loop body draws no randomness, so the trajectory is a function of
the initial state. -/
theorem loss_trajectory_deterministic (σ : Type) (B : Backend σ) (n : ℕ)
    (s₁ s₂ : LoopState σ) (h : s₁ = s₂) :
    (trainLoop B n s₁).2.1 = (trainLoop B n s₂).2.1 := by rw [h]

/-- Witness for C5: two runs from the concrete initial state over the
trivial backend, for 3 epochs. -/
theorem loss_trajectory_deterministic_witness :
    (trainLoop unitBackend 3 initState).2.1 =
      (trainLoop unitBackend 3 initState).2.1 :=
  loss_trajectory_deterministic Unit unitBackend 3 initState initState rfl

/-- C6: for every epoch count `n` the loop performs exactly `n`
iterations — one recorded loss per epoch and `Epoch:` lines for exactly
the indices `1, …, n` in order — with no early exit and no extension. -/
theorem training_loop_exact_epochs (σ : Type) (B : Backend σ) (n : ℕ)
    (s : LoopState σ) :
    (trainLoop B n s).2.1.length = n ∧
    epochIndices (trainLoop B n s).2.2 = List.range' 1 n := by
  have h := runEpochs_losses_indices B (List.range' 1 n) s
  have h1 := h.1
  rw [List.length_range'] at h1
  exact ⟨h1, h.2⟩

/-- C7: shape conformance of the derived structural matrices: the
rank-1 incidence matrix has node-count (34) rows, and `L_tilde_pinv` is
square of dimension the edge count (78), for any entry values supplied
by the external numerical library. -/
theorem structural_matrix_shapes (le pe : ℕ → ℕ → ℚ) :
    (incidence_1 le).rows = nNodes ∧ nNodes = 34 ∧
    (L_tilde_pinv le pe).rows = (L_tilde_pinv le pe).cols ∧
    (L_tilde_pinv le pe).rows = nEdges ∧ nEdges = 78 :=
  ⟨rfl, rfl, rfl, rfl, rfl⟩

/-- C8: each epoch prints exactly one `Epoch: <n> loss: <..> Train_acc:
<..>` line — whose loss is the mean of the single recorded loss on the
first-30-rows slice and whose accuracy is the notebook's thresholded
accuracy — followed, exactly when the epoch index is divisible by
`test_interval = 2`, by one `Test_acc:` line computed from the
post-step model on the last-4-rows slice against `y_test`; nothing else
is printed, and the epoch's resulting state is the optimizer-step
result regardless of the test branch (the test evaluation runs without
gradient tracking and mutates nothing). -/
theorem epoch_console_output (σ : Type) (B : Backend σ) (i : ℕ)
    (s : LoopState σ) :
    (runEpoch B i s).lines =
      OutLine.epochLine i
          (npMean [B.bce (firstRows (forwardModel B s.model)) s.yTr])
          (sliceAccuracy (lastRows30 (threshold (forwardModel B s.model)))
            s.yTr) ::
        (if i % testInterval = 0
         then [OutLine.testLine (sliceAccuracy
            (lastRows4 (threshold (forwardModel B
              ⟨s.model.layersParams,
               (B.adamUpdate s.model.lin s.opt s.yTr).1⟩))) s.yTe)]
         else []) ∧
    (runEpoch B i s).state =
      ⟨⟨s.model.layersParams, (B.adamUpdate s.model.lin s.opt s.yTr).1⟩,
       (B.adamUpdate s.model.lin s.opt s.yTr).2, s.yTr, s.yTe⟩ := by
  constructor
  · by_cases h : i % testInterval = 0 <;> simp [runEpoch, h]
  · exact runEpoch_state B i s

/-- C9: running the training loop for 0 epochs performs no optimizer
step: the resulting state — every model parameter included — is
exactly the initial one, and no loss is recorded and nothing printed. -/
theorem zero_epochs_leaves_params (σ : Type) (B : Backend σ)
    (s : LoopState σ) :
    trainLoop B 0 s = (s, [], []) := rfl

/-- C10: `y_train` consists of rows 0..29 of `y_true` and `y_test` of
rows 74..77, these index sets are disjoint, and the training loop never
writes to the label arrays: after any number of epochs they are exactly
the ones constructed. -/
theorem labels_split_disjoint_immutable :
    (∀ (i : Fin 30) (c : Fin 2), y_train i c = y_true (trainIdx i) c) ∧
    (∀ (i : Fin 30), (trainIdx i).val = i.val) ∧
    (∀ (i : Fin 4) (c : Fin 2), y_test i c = y_true (testIdx i) c) ∧
    (∀ (i : Fin 4), (testIdx i).val = 74 + i.val) ∧
    (∀ (i : Fin 30) (j : Fin 4), (trainIdx i).val ≠ (testIdx j).val) ∧
    ∀ (σ : Type) (B : Backend σ) (n : ℕ) (s : LoopState σ),
      (trainLoop B n s).1.yTr = s.yTr ∧ (trainLoop B n s).1.yTe = s.yTe := by
  refine ⟨fun i c => rfl, fun i => rfl, fun i c => rfl, fun i => rfl,
    by decide, fun σ B n s => ?_⟩
  exact ⟨(runEpochs_frame B (List.range' 1 n) s).2.1,
    (runEpochs_frame B (List.range' 1 n) s).2.2⟩

end D2C
